import Mathlib

/-!
Shallow embedding of the scheduling server (final version of
`src/server/index.js`): a Firestore-backed event store, the socket
handlers `add_event`, `update_event`, `delete_event`,
`manual_delete_old_events`, the connection handler, and the
`broadcastEvents` helper.  Store operations are modelled as pure
functions on an explicit store state; each fallible store call takes a
Boolean flag saying whether the external call fails (the `catch`
branches of the source).
-/

namespace Scheduling

/-- A client-supplied date value: either a well-formed timestamp or a
malformed string/value.  `new Date(x)` on a malformed input yields the
JavaScript invalid-date sentinel (time value `NaN`). -/
inductive DateInput where
  | valid (t : Int)
  | malformed
deriving DecidableEq, Repr

/-- `new Date(x)`: coercion of a payload value to a date; `none` is the
invalid-date sentinel. -/
def newDate : DateInput → Option Int
  | .valid t => some t
  | .malformed => none

/-- The fields of one document in the `events` collection, as written by
the server handlers.  The document itself carries no `id` field: the id
is the Firestore document key. -/
structure StoredEvent where
  title : String
  start : Option Int
  «end» : Option Int
  isTentative : Bool
  notes : String
deriving DecidableEq, Repr

/-- An event as sent to clients: the Firestore document id together with
the document data (`{ id: doc.id, ...doc.data() }`). -/
structure Event where
  id : Nat
  title : String
  start : Option Int
  «end» : Option Int
  isTentative : Bool
  notes : String
deriving DecidableEq, Repr

/-- The `events` collection: keyed documents plus the store's id
generator (Firestore auto-generates document ids on `add`). -/
structure Store where
  docs : List (Nat × StoredEvent)
  nextId : Nat
deriving DecidableEq, Repr

/-- `{ id: doc.id, ...doc.data() }` in `broadcastEvents` and the
connection handler. -/
def toEvent (kv : Nat × StoredEvent) : Event :=
  { id := kv.1, title := kv.2.title, start := kv.2.start,
    «end» := kv.2.«end», isTentative := kv.2.isTentative,
    notes := kv.2.notes }

/-- Firestore ascending comparison on `start` values; the invalid
sentinel sorts first. -/
def dateLEb (a b : Option Int) : Bool :=
  match a, b with
  | none, _ => true
  | some _, none => false
  | some x, some y => x ≤ y

/-- Ordering of events used by `orderBy('start')`. -/
def startLE (a b : Event) : Prop := dateLEb a.start b.start = true

instance : DecidableRel startLE :=
  fun a b => inferInstanceAs (Decidable (dateLEb a.start b.start = true))

/-- `eventsCollection.orderBy('start').get()` followed by the document →
event mapping: the store content as an event list, ordered by `start`
ascending. -/
def listAll (s : Store) : List Event :=
  List.insertionSort startLE (s.docs.map toEvent)

/-- Server → client messages.  `initial_events` is a `socket.emit`
(one destination); `events_updated` and `new_event` are `io.emit`
broadcasts.  `new_event` is the legacy message the client still
subscribes to. -/
inductive Msg where
  | initial_events (dest : Nat) (events : List Event)
  | new_event (event : Event)
  | events_updated (events : List Event)
deriving DecidableEq, Repr

/-- Server-side console output. -/
inductive LogEntry where
  | info (tag : String)
  | error (tag : String)
deriving DecidableEq, Repr

/-- Whether session `sid`, when the connected sessions are `sessions`,
receives message `m`: `io.emit` messages reach every connected session,
a `socket.emit` only the socket's own session. -/
def receives (sessions : List Nat) (sid : Nat) : Msg → Bool
  | .initial_events dest _ => decide (sid ∈ sessions) && decide (sid = dest)
  | .new_event _ => decide (sid ∈ sessions)
  | .events_updated _ => decide (sid ∈ sessions)

/-- `broadcastEvents`: re-fetch the full ordered list and `io.emit` it
as `events_updated`; a failed fetch is caught and logged, emitting
nothing. -/
def broadcastEvents (fetchFails : Bool) (s : Store) :
    List Msg × List LogEntry :=
  if fetchFails then
    ([], [.info "Broadcasting events...",
          .error "Error broadcasting events:"])
  else
    ([.events_updated (listAll s)],
     [.info "Broadcasting events...", .info "Events to broadcast:"])

/-- The `io.on('connection')` body before the listeners are installed:
fetch the ordered list and send it to the new socket only; a failed
fetch is caught and logged, sending nothing. -/
def handleConnect (fetchFails : Bool) (sid : Nat) (s : Store) :
    List Msg × List LogEntry :=
  if fetchFails then
    ([], [.info "a user connected",
          .error "Error sending initial events:"])
  else
    ([.initial_events sid (listAll s)], [.info "a user connected"])

/-- `add_event` payload: the client may send an `id` (the handler never
reads it); `isTentative` and `notes` may be absent. -/
structure AddPayload where
  id : Option Nat
  title : String
  start : DateInput
  «end» : DateInput
  isTentative : Option Bool
  notes : Option String
deriving DecidableEq, Repr

/-- `update_event` payload: an `id` plus the same fields as add. -/
structure UpdatePayload where
  id : Nat
  title : String
  start : DateInput
  «end» : DateInput
  isTentative : Option Bool
  notes : Option String
deriving DecidableEq, Repr

/-- Result of running one socket handler: the store afterwards, the
messages emitted, and the console output. -/
structure HandlerOut where
  store : Store
  msgs : List Msg
  logs : List LogEntry
deriving DecidableEq, Repr

/-- The document written by `eventsCollection.add` in the `add_event`
handler: `start`/`end` coerced by `new Date`, `isTentative || false`,
`notes || ''`.  On an optional boolean or string field, `x || fallback`
agrees with `Option.getD` (`"" || ''` is again the empty string). -/
def addedDoc (p : AddPayload) : StoredEvent :=
  { title := p.title, start := newDate p.start,
    «end» := newDate p.«end»,
    isTentative := p.isTentative.getD false,
    notes := p.notes.getD "" }

/-- The field map passed to `doc(id).update` in the `update_event`
handler; the destructured `id` is not among the written fields. -/
def updatedDoc (p : UpdatePayload) : StoredEvent :=
  { title := p.title, start := newDate p.start,
    «end» := newDate p.«end»,
    isTentative := p.isTentative.getD false,
    notes := p.notes.getD "" }

/-- Whether the collection currently holds a document with key `id`. -/
def hasId (s : Store) (id : Nat) : Bool :=
  s.docs.any (fun kv => kv.1 == id)

/-- The `socket.on('add_event')` handler.  A failed `add` is caught and
logged with nothing broadcast; on success the store assigns the new
document's id and `broadcastEvents` runs. -/
def handleAdd (addFails fetchFails : Bool) (s : Store) (p : AddPayload) :
    HandlerOut :=
  if addFails then
    { store := s, msgs := [], logs := [.error "Error adding event:"] }
  else
    let s' : Store :=
      { docs := s.docs ++ [(s.nextId, addedDoc p)], nextId := s.nextId + 1 }
    let bc := broadcastEvents fetchFails s'
    { store := s', msgs := bc.1,
      logs := .info "New event added with ID:" :: bc.2 }

/-- The `socket.on('update_event')` handler.  Firestore `update` on a
missing document rejects, landing in the catch branch; a failed call
likewise.  On success the document keyed by `p.id` gets the new field
map and `broadcastEvents` runs. -/
def handleUpdate (updateFails fetchFails : Bool) (s : Store)
    (p : UpdatePayload) : HandlerOut :=
  if updateFails || !hasId s p.id then
    { store := s, msgs := [], logs := [.error "Error updating event:"] }
  else
    let s' : Store :=
      { s with docs := (s.docs.map
          (fun kv => if kv.1 == p.id then (kv.1, updatedDoc p) else kv)) }
    let bc := broadcastEvents fetchFails s'
    { store := s', msgs := bc.1,
      logs := .info "Event updated with ID:" :: bc.2 }

/-- The `socket.on('delete_event')` handler.  Firestore `delete` on a
missing document still succeeds, so the handler broadcasts
unconditionally after any successful delete call. -/
def handleDelete (deleteFails fetchFails : Bool) (s : Store) (id : Nat) :
    HandlerOut :=
  if deleteFails then
    { store := s, msgs := [], logs := [.error "Error deleting event:"] }
  else
    let s' : Store := { s with docs := s.docs.filter (fun kv => kv.1 != id) }
    let bc := broadcastEvents fetchFails s'
    { store := s', msgs := bc.1,
      logs := .info "Event deleted with ID:" :: bc.2 }

/-- Firestore `where('end', '<', cutoff)`: strict comparison on the
stored `end`; a document whose `end` is the invalid sentinel is not
matched by a range filter. -/
def dateLTb (a : Option Int) (b : Int) : Bool :=
  match a with
  | none => false
  | some x => x < b

/-- The `socket.on('manual_delete_old_events')` handler.
`beforeDate.toISOString()` throws on an invalid date, landing in the
catch branch.  Otherwise: query the matching documents; if none, log
and return without broadcasting; otherwise delete them in one batch and
broadcast. -/
def handleBulkDelete (batchFails fetchFails : Bool) (s : Store)
    (beforeDate : DateInput) : HandlerOut :=
  match newDate beforeDate with
  | none =>
    { store := s, msgs := [],
      logs := [.error "Error during manual deletion of old events:"] }
  | some cutoff =>
    if batchFails then
      { store := s, msgs := [],
        logs := [.info "Manual request to delete events before",
                 .error "Error during manual deletion of old events:"] }
    else if (s.docs.filter (fun kv => dateLTb kv.2.«end» cutoff)).isEmpty then
      { store := s, msgs := [],
        logs := [.info "Manual request to delete events before",
                 .info "No old events to delete."] }
    else
      let s' : Store :=
        { s with docs := s.docs.filter (fun kv => !dateLTb kv.2.«end» cutoff) }
      let bc := broadcastEvents fetchFails s'
      { store := s', msgs := bc.1,
        logs := [.info "Manual request to delete events before",
                 .info "Manually deleted old events."] ++ bc.2 }

/-- One client→server mutation request, together with the failure
behaviour of the store calls it makes. -/
inductive Op where
  | add (p : AddPayload) (opFails fetchFails : Bool)
  | update (p : UpdatePayload) (opFails fetchFails : Bool)
  | del (id : Nat) (opFails fetchFails : Bool)
  | bulkDelete (beforeDate : DateInput) (opFails fetchFails : Bool)
deriving DecidableEq, Repr

/-- Dispatch of one mutation request to its handler. -/
def stepOp (s : Store) : Op → HandlerOut
  | .add p f g => handleAdd f g s p
  | .update p f g => handleUpdate f g s p
  | .del id f g => handleDelete f g s id
  | .bulkDelete d f g => handleBulkDelete f g s d

/-- Processing a sequence of mutation requests one after the other,
recording each handler's outcome. -/
def trace (s : Store) : List Op → List HandlerOut
  | [] => []
  | op :: ops =>
    let o := stepOp s op
    o :: trace o.store ops

/-! Concrete sample data used by the closed instantiations below. -/

/-- A stored document resembling the spec's "Alice" scenario. -/
def sampleDoc : StoredEvent :=
  { title := "Alice", start := some 10, «end» := some 11,
    isTentative := false, notes := "" }

/-- A second stored document, earlier and with nonempty notes. -/
def sampleDoc2 : StoredEvent :=
  { title := "Bob", start := some 5, «end» := some 7,
    isTentative := true, notes := "keep" }

/-- A store holding the two sample documents. -/
def sampleStore : Store :=
  { docs := [(0, sampleDoc), (1, sampleDoc2)], nextId := 2 }

/-- An `add_event` payload with a client-supplied id and absent
optional fields. -/
def samplePayload : AddPayload :=
  { id := some 77, title := "Carol", start := .valid 3,
    «end» := .valid 4, isTentative := none, notes := none }

/-- An `update_event` payload retitling the "Alice" document (key 0)
and omitting the optional fields. -/
def sampleUpdate : UpdatePayload :=
  { id := 0, title := "Alice B", start := .valid 10,
    «end» := .valid 11, isTentative := none, notes := none }

/-- An `update_event` payload for Bob's document (key 1) omitting both
optional fields. -/
def sampleUpdate2 : UpdatePayload :=
  { id := 1, title := "Bob", start := .valid 5,
    «end» := .valid 7, isTentative := none, notes := none }

/-- An `add_event` payload whose `start` is malformed. -/
def sampleBadAdd : AddPayload :=
  { id := none, title := "Dave", start := .malformed,
    «end» := .valid 20, isTentative := none, notes := none }

/-- An `update_event` payload for key 0 whose `end` is malformed. -/
def sampleBadUpdate : UpdatePayload :=
  { id := 0, title := "Alice", start := .valid 10,
    «end» := .malformed, isTentative := none, notes := none }

/-! Ordering facts about `listAll`. -/

theorem dateLEb_total (a b : Option Int) :
    dateLEb a b = true ∨ dateLEb b a = true := by
  rcases a with _ | x <;> rcases b with _ | y <;> simp [dateLEb] <;> omega

theorem dateLEb_trans {a b c : Option Int} (h1 : dateLEb a b = true)
    (h2 : dateLEb b c = true) : dateLEb a c = true := by
  rcases a with _ | x <;> rcases b with _ | y <;> rcases c with _ | z <;>
    simp [dateLEb] at * <;> omega

instance : IsTotal Event startLE :=
  ⟨fun a b => dateLEb_total a.start b.start⟩

instance : IsTrans Event startLE :=
  ⟨fun _ _ _ h1 h2 => dateLEb_trans h1 h2⟩

/-- The fetched list is sorted by `start` ascending. -/
theorem listAll_sorted (s : Store) : List.Sorted startLE (listAll s) :=
  List.sorted_insertionSort startLE _

/-- The fetched list is exactly the store's content (as events). -/
theorem listAll_perm (s : Store) : (listAll s).Perm (s.docs.map toEvent) :=
  List.perm_insertionSort startLE _

/-- Every handler's message list is either empty or a single
`events_updated` broadcast carrying the ordered content of the store
the handler left behind. -/
theorem stepOp_msgs_shape (s : Store) (op : Op) :
    (stepOp s op).msgs = [] ∨
      (stepOp s op).msgs =
        [Msg.events_updated (listAll (stepOp s op).store)] := by
  rcases op with ⟨p, f, g⟩ | ⟨p, f, g⟩ | ⟨i, f, g⟩ | ⟨d, f, g⟩
  · cases f <;> cases g <;>
      simp [stepOp, handleAdd, broadcastEvents]
  · rcases f with _ | _ <;> rcases g with _ | _ <;>
      simp [stepOp, handleUpdate, broadcastEvents] <;>
      split <;> simp
  · cases f <;> cases g <;>
      simp [stepOp, handleDelete, broadcastEvents]
  · rcases d with t | _ <;> cases f <;> cases g <;>
      simp [stepOp, handleBulkDelete, broadcastEvents, newDate] <;>
      split <;> simp

/-- C1: for every sequence of mutation requests, after the server
finishes processing each one, the list broadcast in the `events_updated`
message equals the store's current content ordered by `start` ascending,
and the broadcast reaches every connected session, not only the
initiator. -/
theorem events_updated_is_current_sorted_list (l : List Event) (s : Store)
    (ops : List Op) (out : HandlerOut) (hout : out ∈ trace s ops)
    (hl : Msg.events_updated l ∈ out.msgs) :
    List.Sorted startLE l ∧ l.Perm (out.store.docs.map toEvent) ∧
      ∀ sessions sid, sid ∈ sessions →
        receives sessions sid (Msg.events_updated l) = true := by
  induction ops generalizing s out with
  | nil => simp [trace] at hout
  | cons op ops ih =>
    simp only [trace] at hout
    rcases List.mem_cons.mp hout with h | h
    · subst h
      rcases stepOp_msgs_shape s op with hm | hm
      · rw [hm] at hl; simp at hl
      · rw [hm] at hl
        simp only [List.mem_singleton, Msg.events_updated.injEq] at hl
        subst hl
        refine ⟨listAll_sorted _, listAll_perm _, ?_⟩
        intro sessions sid hs
        simp [receives, hs]
    · exact ih _ _ h hl

/-- C1 instantiated: adding a concrete event to the sample store yields
a broadcast of the sorted current content, received by every connected
session. -/
theorem events_updated_is_current_sorted_list_witness :
    List.Sorted startLE
        (listAll (stepOp sampleStore (Op.add samplePayload false false)).store) ∧
      (listAll (stepOp sampleStore (Op.add samplePayload false false)).store).Perm
        ((stepOp sampleStore (Op.add samplePayload false false)).store.docs.map toEvent) ∧
      receives [3, 4] 4
        (Msg.events_updated
          (listAll (stepOp sampleStore
            (Op.add samplePayload false false)).store)) = true :=
  ⟨(events_updated_is_current_sorted_list
      (listAll (stepOp sampleStore (Op.add samplePayload false false)).store)
      sampleStore [Op.add samplePayload false false]
      (stepOp sampleStore (Op.add samplePayload false false))
      (by decide) (by decide)).1,
   (events_updated_is_current_sorted_list
      (listAll (stepOp sampleStore (Op.add samplePayload false false)).store)
      sampleStore [Op.add samplePayload false false]
      (stepOp sampleStore (Op.add samplePayload false false))
      (by decide) (by decide)).2.1,
   (events_updated_is_current_sorted_list
      (listAll (stepOp sampleStore (Op.add samplePayload false false)).store)
      sampleStore [Op.add samplePayload false false]
      (stepOp sampleStore (Op.add samplePayload false false))
      (by decide) (by decide)).2.2 [3, 4] 4 (by decide)⟩

/-- C2 counterexample: deleting the absent id 99 from the sample store
leaves the document list unchanged, yet the handler still emits an
`events_updated` broadcast — "no broadcast fires" is false on the
code. -/
theorem delete_nonexistent_counterexample :
    (stepOp sampleStore (Op.del 99 false false)).store.docs =
        sampleStore.docs ∧
      (stepOp sampleStore (Op.del 99 false false)).msgs ≠ [] := by
  decide

/-- C2 amended: deleting a nonexistent id (store calls succeeding)
leaves the event list unchanged, but one `events_updated` broadcast
carrying the unchanged ordered list still fires. -/
theorem delete_nonexistent_noop_but_broadcast (s : Store) (id : Nat)
    (h : hasId s id = false) :
    (stepOp s (Op.del id false false)).store = s ∧
      (stepOp s (Op.del id false false)).msgs =
        [Msg.events_updated (listAll s)] := by
  have hall : ∀ kv ∈ s.docs, (kv.1 == id) = false := by
    rw [hasId, List.any_eq_false] at h
    intro kv hkv
    simpa using h kv hkv
  have hfilter : s.docs.filter (fun kv => kv.1 != id) = s.docs := by
    apply List.filter_eq_self.mpr
    intro kv hkv
    simp [bne, hall kv hkv]
  have hs : ({ s with docs := s.docs.filter (fun kv => kv.1 != id) } :
      Store) = s := by
    rw [hfilter]
  simp only [stepOp, handleDelete, broadcastEvents, Bool.false_eq_true,
    if_false, hs]
  exact ⟨trivial, trivial⟩

/-- C2 amended, instantiated at the absent id 99 on the sample store. -/
theorem delete_nonexistent_noop_but_broadcast_witness :
    hasId sampleStore 99 = false ∧
      ((stepOp sampleStore (Op.del 99 false false)).store = sampleStore ∧
        (stepOp sampleStore (Op.del 99 false false)).msgs =
          [Msg.events_updated (listAll sampleStore)]) :=
  ⟨by decide, delete_nonexistent_noop_but_broadcast sampleStore 99 (by decide)⟩

/-- Refinement of the code's range filter to the spec's "end strictly
less than the cutoff". -/
theorem dateLTb_iff (a : Option Int) (c : Int) :
    dateLTb a c = true ↔ ∃ e, a = some e ∧ e < c := by
  cases a <;> simp [dateLTb]

/-- C3: `manual_delete_old_events` with a well-formed cutoff (store
calls succeeding) keeps exactly the documents whose `end` is not
strictly below the cutoff; if no document matches, nothing is deleted
and no broadcast fires; otherwise exactly one `events_updated`
broadcast follows the batch deletion. -/
theorem bulk_delete_exactly_old (s : Store) (cutoff : Int) :
    (∀ kv, kv ∈ (stepOp s
          (Op.bulkDelete (DateInput.valid cutoff) false false)).store.docs ↔
        kv ∈ s.docs ∧ ¬ ∃ e, kv.2.«end» = some e ∧ e < cutoff) ∧
      ((∀ kv ∈ s.docs, ¬ ∃ e, kv.2.«end» = some e ∧ e < cutoff) →
        (stepOp s (Op.bulkDelete (DateInput.valid cutoff) false false)).store
            = s ∧
          (stepOp s
            (Op.bulkDelete (DateInput.valid cutoff) false false)).msgs = []) ∧
      ((∃ kv ∈ s.docs, ∃ e, kv.2.«end» = some e ∧ e < cutoff) →
        (stepOp s (Op.bulkDelete (DateInput.valid cutoff) false false)).msgs =
          [Msg.events_updated (listAll (stepOp s
            (Op.bulkDelete (DateInput.valid cutoff) false false)).store)]) := by
  by_cases hE :
      (s.docs.filter (fun kv => dateLTb kv.2.«end» cutoff)).isEmpty = true
  · have hnil := List.isEmpty_iff.mp hE
    have hall : ∀ kv ∈ s.docs, dateLTb kv.2.«end» cutoff = false := by
      have hf := List.filter_eq_nil_iff.mp hnil
      intro kv hkv
      simpa using hf kv hkv
    refine ⟨?_, ?_, ?_⟩
    · intro kv
      simp only [stepOp, handleBulkDelete, newDate, hE, if_true,
        Bool.false_eq_true, if_false]
      constructor
      · intro hkv
        refine ⟨hkv, ?_⟩
        rw [← dateLTb_iff]
        simp [hall kv hkv]
      · exact fun hk => hk.1
    · intro _
      simp [stepOp, handleBulkDelete, newDate, hE]
    · rintro ⟨kv, hkv, e, he, hlt⟩
      have : dateLTb kv.2.«end» cutoff = true :=
        (dateLTb_iff _ _).mpr ⟨e, he, hlt⟩
      rw [hall kv hkv] at this
      cases this
  · have hE' :
        (s.docs.filter (fun kv => dateLTb kv.2.«end» cutoff)).isEmpty
          = false := by
      revert hE
      cases (s.docs.filter (fun kv => dateLTb kv.2.«end» cutoff)).isEmpty <;>
        simp
    refine ⟨?_, ?_, ?_⟩
    · intro kv
      simp only [stepOp, handleBulkDelete, newDate, hE', Bool.false_eq_true,
        if_false, broadcastEvents]
      rw [List.mem_filter]
      constructor
      · rintro ⟨hkv, hnot⟩
        refine ⟨hkv, ?_⟩
        rw [← dateLTb_iff]
        simp at hnot
        simp [hnot]
      · rintro ⟨hkv, hnot⟩
        refine ⟨hkv, ?_⟩
        rw [← dateLTb_iff] at hnot
        simp
        exact Bool.eq_false_iff.mpr (fun hc => hnot hc)
    · intro hnone
      exfalso
      have hfnil : s.docs.filter (fun kv => dateLTb kv.2.«end» cutoff) = [] := by
        apply List.filter_eq_nil_iff.mpr
        intro kv hkv
        have := hnone kv hkv
        rw [← dateLTb_iff] at this
        simpa using this
      rw [hfnil] at hE'
      simp at hE'
    · intro _
      simp [stepOp, handleBulkDelete, newDate, hE', broadcastEvents]

/-- C3 instantiated: cutoff 9 on the sample store deletes Bob's event
(end 7) and broadcasts once. -/
theorem bulk_delete_exactly_old_witness :
    (stepOp sampleStore (Op.bulkDelete (DateInput.valid 9) false false)).msgs =
      [Msg.events_updated (listAll (stepOp sampleStore
        (Op.bulkDelete (DateInput.valid 9) false false)).store)] :=
  (bulk_delete_exactly_old sampleStore 9).2.2
    ⟨(1, sampleDoc2), by decide, 7, by decide, by decide⟩

/-- C4: `add_event` stores the payload with `start`/`end` coerced by
`new Date`, `isTentative` defaulting to false and `notes` to the empty
string when absent, under a fresh store-assigned key; the stored
document and resulting store are independent of any client-supplied
id. -/
theorem add_event_shape (s : Store) (p : AddPayload) (ff : Bool) :
    (stepOp s (Op.add p false ff)).store.docs =
        s.docs ++ [(s.nextId, addedDoc p)] ∧
      (stepOp s (Op.add p false ff)).store.nextId = s.nextId + 1 ∧
      (addedDoc p).start = newDate p.start ∧
      (addedDoc p).«end» = newDate p.«end» ∧
      (p.isTentative = none → (addedDoc p).isTentative = false) ∧
      (p.notes = none → (addedDoc p).notes = "") ∧
      ∀ pid, (stepOp s (Op.add { p with id := pid } false ff)).store =
        (stepOp s (Op.add p false ff)).store := by
  refine ⟨rfl, rfl, rfl, rfl, ?_, ?_, fun pid => rfl⟩
  · intro h; simp [addedDoc, h]
  · intro h; simp [addedDoc, h]

/-- C4 instantiated: the sample payload carries client id 77 and omits
the optional fields; the stored document sits under the store's own
next key with the defaults filled in. -/
theorem add_event_shape_witness :
    (stepOp sampleStore (Op.add samplePayload false false)).store.docs =
        sampleStore.docs ++ [(sampleStore.nextId, addedDoc samplePayload)] ∧
      (addedDoc samplePayload).isTentative = false ∧
      (addedDoc samplePayload).notes = "" :=
  ⟨(add_event_shape sampleStore samplePayload false).1,
   (add_event_shape sampleStore samplePayload false).2.2.2.2.1 rfl,
   (add_event_shape sampleStore samplePayload false).2.2.2.2.2.1 rfl⟩

/-- A successful update leaves the set of document keys unchanged. -/
theorem update_keys_eq (s : Store) (p : UpdatePayload) (ff : Bool)
    (h : hasId s p.id = true) :
    (stepOp s (Op.update p false ff)).store.docs.map Prod.fst =
      s.docs.map Prod.fst := by
  simp only [stepOp, handleUpdate, h, Bool.not_true, Bool.or_false,
    Bool.false_eq_true, if_false]
  rw [List.map_map]
  congr 1
  funext kv
  simp only [Function.comp]
  split <;> rfl

/-- A successful update leaves every other document untouched. -/
theorem update_frame_other (s : Store) (p : UpdatePayload) (ff : Bool)
    (h : hasId s p.id = true) :
    ∀ kv ∈ s.docs, kv.1 ≠ p.id →
      kv ∈ (stepOp s (Op.update p false ff)).store.docs := by
  simp only [stepOp, handleUpdate, h, Bool.not_true, Bool.or_false,
    Bool.false_eq_true, if_false]
  intro kv hkv hne
  refine List.mem_map.mpr ⟨kv, hkv, ?_⟩
  rw [if_neg (by simp [hne])]

/-- After a successful update, the document keyed by the payload id
holds exactly the written field map. -/
theorem update_target_doc (s : Store) (p : UpdatePayload) (ff : Bool)
    (h : hasId s p.id = true) :
    ∀ kv ∈ (stepOp s (Op.update p false ff)).store.docs,
      kv.1 = p.id → kv.2 = updatedDoc p := by
  simp only [stepOp, handleUpdate, h, Bool.not_true, Bool.or_false,
    Bool.false_eq_true, if_false]
  intro kv hkv hid
  rcases List.mem_map.mp hkv with ⟨a, ha, hfa⟩
  by_cases hc : (a.1 == p.id) = true
  · rw [if_pos hc] at hfa
    rw [← hfa]
  · rw [if_neg hc] at hfa
    subst hfa
    exact absurd hid (by simpa using hc)

/-- C5: a successful `update_event` cannot change which document it
targets: the document keys are exactly those from before, documents
with other keys are untouched, and the document keyed by the payload id
carries precisely the written field map — a `StoredEvent`, which has no
id field. -/
theorem update_event_frame (s : Store) (p : UpdatePayload) (ff : Bool)
    (h : hasId s p.id = true) :
    (stepOp s (Op.update p false ff)).store.docs.map Prod.fst =
        s.docs.map Prod.fst ∧
      (∀ kv ∈ s.docs, kv.1 ≠ p.id →
        kv ∈ (stepOp s (Op.update p false ff)).store.docs) ∧
      (∀ kv ∈ (stepOp s (Op.update p false ff)).store.docs,
        kv.1 = p.id → kv.2 = updatedDoc p) :=
  ⟨update_keys_eq s p ff h, update_frame_other s p ff h,
    update_target_doc s p ff h⟩

/-- C5 instantiated: updating the "Alice" document (key 0) of the
sample store keeps the keys, keeps Bob's document, and rewrites the
target document to the written field map. -/
theorem update_event_frame_witness :
    (stepOp sampleStore (Op.update sampleUpdate false false)).store.docs.map
        Prod.fst = sampleStore.docs.map Prod.fst ∧
      (1, sampleDoc2) ∈ (stepOp sampleStore
        (Op.update sampleUpdate false false)).store.docs ∧
      (0, updatedDoc sampleUpdate) ∈ (stepOp sampleStore
        (Op.update sampleUpdate false false)).store.docs :=
  ⟨(update_event_frame sampleStore sampleUpdate false (by decide)).1,
   (update_event_frame sampleStore sampleUpdate false (by decide)).2.1
     (1, sampleDoc2) (by decide) (by decide),
   by decide⟩

/-- C6: when the store mutation fails, each of the four mutation
handlers leaves the store unchanged, emits no message at all — in
particular no error message back to the initiating client — and logs
the failure server-side. -/
theorem store_failure_silent (s : Store) (p : AddPayload)
    (q : UpdatePayload) (id : Nat) (d : DateInput) (ff : Bool) :
    ((stepOp s (Op.add p true ff)).store = s ∧
      (stepOp s (Op.add p true ff)).msgs = [] ∧
      ∃ t, LogEntry.error t ∈ (stepOp s (Op.add p true ff)).logs) ∧
    ((stepOp s (Op.update q true ff)).store = s ∧
      (stepOp s (Op.update q true ff)).msgs = [] ∧
      ∃ t, LogEntry.error t ∈ (stepOp s (Op.update q true ff)).logs) ∧
    ((stepOp s (Op.del id true ff)).store = s ∧
      (stepOp s (Op.del id true ff)).msgs = [] ∧
      ∃ t, LogEntry.error t ∈ (stepOp s (Op.del id true ff)).logs) ∧
    ((stepOp s (Op.bulkDelete d true ff)).store = s ∧
      (stepOp s (Op.bulkDelete d true ff)).msgs = [] ∧
      ∃ t, LogEntry.error t ∈ (stepOp s (Op.bulkDelete d true ff)).logs) := by
  refine ⟨⟨rfl, rfl, "Error adding event:", by simp [stepOp, handleAdd]⟩,
    ⟨rfl, rfl, "Error updating event:", by simp [stepOp, handleUpdate]⟩,
    ⟨rfl, rfl, "Error deleting event:", by simp [stepOp, handleDelete]⟩, ?_⟩
  rcases d with t | _
  · exact ⟨rfl, rfl, "Error during manual deletion of old events:",
      by simp [stepOp, handleBulkDelete, newDate]⟩
  · exact ⟨rfl, rfl, "Error during manual deletion of old events:",
      by simp [stepOp, handleBulkDelete, newDate]⟩

/-- C7: a new connection triggers a fetch of the full list ordered by
`start` ascending, sent as exactly one `initial_events` message that
only the connecting session receives; if the fetch fails, the failure
is logged and nothing is sent to that session. -/
theorem connect_initial_events (s : Store) (sid : Nat) :
    (handleConnect false sid s).1 = [Msg.initial_events sid (listAll s)] ∧
      List.Sorted startLE (listAll s) ∧
      (listAll s).Perm (s.docs.map toEvent) ∧
      (∀ sessions sid2,
        receives sessions sid2 (Msg.initial_events sid (listAll s)) = true ↔
          (sid2 ∈ sessions ∧ sid2 = sid)) ∧
      (handleConnect true sid s).1 = [] ∧
      LogEntry.error "Error sending initial events:" ∈
        (handleConnect true sid s).2 := by
  refine ⟨rfl, listAll_sorted s, listAll_perm s, ?_, rfl,
    by simp [handleConnect]⟩
  intro sessions sid2
  simp [receives]

/-- C8: a malformed `start` or `end` in an `add_event` or
`update_event` payload coerces to the invalid-date sentinel and is
written to the store as such; the request is not rejected — the
mutation persists and the broadcast still fires. -/
theorem malformed_dates_written (s : Store) (p : AddPayload)
    (q : UpdatePayload) (hp : p.start = DateInput.malformed)
    (hq : q.«end» = DateInput.malformed) (hid : hasId s q.id = true) :
    (stepOp s (Op.add p false false)).store.docs =
        s.docs ++ [(s.nextId, addedDoc p)] ∧
      (addedDoc p).start = none ∧
      (stepOp s (Op.add p false false)).msgs ≠ [] ∧
      (updatedDoc q).«end» = none ∧
      (∀ kv ∈ (stepOp s (Op.update q false false)).store.docs,
        kv.1 = q.id → kv.2.«end» = none) ∧
      (stepOp s (Op.update q false false)).msgs ≠ [] := by
  refine ⟨rfl, by simp [addedDoc, hp, newDate],
    by simp [stepOp, handleAdd, broadcastEvents],
    by simp [updatedDoc, hq, newDate], ?_, ?_⟩
  · intro kv hkv hk
    rw [update_target_doc s q false hid kv hkv hk]
    simp [updatedDoc, hq, newDate]
  · simp [stepOp, handleUpdate, hid, broadcastEvents]

/-- C8 instantiated: adding with a malformed `start` and updating the
"Alice" document with a malformed `end`; both writes carry the invalid
sentinel and both broadcasts fire. -/
theorem malformed_dates_written_witness :
    (stepOp sampleStore (Op.add sampleBadAdd false false)).store.docs =
        sampleStore.docs ++ [(sampleStore.nextId, addedDoc sampleBadAdd)] ∧
      (addedDoc sampleBadAdd).start = none ∧
      (stepOp sampleStore (Op.add sampleBadAdd false false)).msgs ≠ [] ∧
      (updatedDoc sampleBadUpdate).«end» = none ∧
      (0, updatedDoc sampleBadUpdate).2.«end» = none ∧
      (stepOp sampleStore (Op.update sampleBadUpdate false false)).msgs ≠ [] :=
  ⟨(malformed_dates_written sampleStore sampleBadAdd sampleBadUpdate
      rfl rfl (by decide)).1,
   (malformed_dates_written sampleStore sampleBadAdd sampleBadUpdate
      rfl rfl (by decide)).2.1,
   (malformed_dates_written sampleStore sampleBadAdd sampleBadUpdate
      rfl rfl (by decide)).2.2.1,
   (malformed_dates_written sampleStore sampleBadAdd sampleBadUpdate
      rfl rfl (by decide)).2.2.2.1,
   (malformed_dates_written sampleStore sampleBadAdd sampleBadUpdate
      rfl rfl (by decide)).2.2.2.2.1
     (0, updatedDoc sampleBadUpdate) (by decide) rfl,
   (malformed_dates_written sampleStore sampleBadAdd sampleBadUpdate
      rfl rfl (by decide)).2.2.2.2.2⟩

/-- C9: the server never emits the legacy `new_event` message: every
message a mutation handler emits is an `events_updated` broadcast (or
nothing), and every message the connection handler emits is the single
`initial_events` snapshot. -/
theorem new_event_never_emitted (s : Store) (op : Op) (e : Event)
    (ff : Bool) (sid : Nat) :
    Msg.new_event e ∉ (stepOp s op).msgs ∧
      Msg.new_event e ∉ (handleConnect ff sid s).1 ∧
      ((stepOp s op).msgs = [] ∨
        ∃ l, (stepOp s op).msgs = [Msg.events_updated l]) ∧
      ((handleConnect ff sid s).1 = [] ∨
        ∃ l, (handleConnect ff sid s).1 = [Msg.initial_events sid l]) := by
  have hs := stepOp_msgs_shape s op
  refine ⟨?_, ?_, ?_, ?_⟩
  · rcases hs with h | h <;> rw [h] <;> simp
  · cases ff <;> simp [handleConnect]
  · rcases hs with h | h
    · exact .inl h
    · exact .inr ⟨_, h⟩
  · cases ff with
    | false => exact .inr ⟨listAll s, rfl⟩
    | true => exact .inl rfl

/-- C10: a successful `update_event` overwrites all five fields of the
target document with values computed from the payload alone; an omitted
`isTentative` or `notes` is reset to `false` or `""`, never preserved
from the previous document. -/
theorem update_overwrites_all_fields (s : Store) (p : UpdatePayload)
    (h : hasId s p.id = true) :
    ∀ kv ∈ (stepOp s (Op.update p false false)).store.docs, kv.1 = p.id →
      kv.2.title = p.title ∧ kv.2.start = newDate p.start ∧
      kv.2.«end» = newDate p.«end» ∧
      kv.2.isTentative = p.isTentative.getD false ∧
      kv.2.notes = p.notes.getD "" := by
  intro kv hkv hk
  rw [update_target_doc s p false h kv hkv hk]
  exact ⟨rfl, rfl, rfl, rfl, rfl⟩

/-- C10 instantiated: Bob's document had `isTentative := true` and
`notes := "keep"`; updating it with a payload omitting both resets them
to `false` and `""`. -/
theorem update_overwrites_all_fields_witness :
    sampleDoc2.notes = "keep" ∧ sampleDoc2.isTentative = true ∧
      (1, updatedDoc sampleUpdate2).2.notes = "" ∧
      (1, updatedDoc sampleUpdate2).2.isTentative = false ∧
      (1, updatedDoc sampleUpdate2).2.title = sampleUpdate2.title :=
  ⟨rfl, rfl,
   (update_overwrites_all_fields sampleStore sampleUpdate2 (by decide)
      (1, updatedDoc sampleUpdate2) (by decide) rfl).2.2.2.2,
   (update_overwrites_all_fields sampleStore sampleUpdate2 (by decide)
      (1, updatedDoc sampleUpdate2) (by decide) rfl).2.2.2.1,
   (update_overwrites_all_fields sampleStore sampleUpdate2 (by decide)
      (1, updatedDoc sampleUpdate2) (by decide) rfl).1⟩

end Scheduling
